import Mathlib

set_option maxHeartbeats 1000000
set_option linter.unusedVariables false

/-!
Verification development for the TriDance signaling/session/telemetry/broadcast
core (`app.py`).  The Python source is shallowly embedded: byte strings become
`List Nat` with every element `< 256`, IEEE-754 `f32`/`f64` fields are carried
as their little-endian bit patterns (Python's `struct` reads and writes these
bit patterns byte-exactly), dicts become functions `String → Option _`, the
asyncio event loop becomes explicit state passing, and calls into `aiortc` /
websockets are oracles (parameters saying whether the call succeeds).
-/

namespace TriDance

/-! ### Little-endian byte codec (the "<" format of `struct.unpack`) -/

/-- Value of a little-endian byte list (least significant byte first), as
`struct.unpack` with the "<" format reads a multi-byte field. -/
def leVal : List Nat → Nat
  | [] => 0
  | b :: rest => b + 256 * leVal rest

/-- Little-endian encoding of a value into `n` bytes, as `struct.pack` with
the "<" format writes a multi-byte field. -/
def leBytes : Nat → Nat → List Nat
  | 0, _ => []
  | n + 1, v => v % 256 :: leBytes n (v / 256)

/-- Contiguous segment of a byte list: `n` bytes starting at offset `off`
(the slice `b[off:off+n]`). -/
def seg (b : List Nat) (off n : Nat) : List Nat :=
  (b.drop off).take n

/-! ### The 36-byte telemetry frame (`struct.unpack("<BBHdffffff", message[:36])`) -/

/-- All ten fields of a decoded telemetry frame.  The `f64` timestamp and the
six `f32` readings are carried as their little-endian bit patterns. -/
structure Frame where
  version : Nat
  flags : Nat
  seq : Nat
  tsBits : Nat
  axBits : Nat
  ayBits : Nat
  azBits : Nat
  gxBits : Nat
  gyBits : Nat
  gzBits : Nat
  deriving DecidableEq

/-- Field extraction of `struct.unpack("<BBHdffffff", b)` on a 36-byte buffer:
offsets 0 and 1 are the `u8` version and flags, offset 2 the `u16` sequence,
offset 4 the `f64` timestamp, offsets 12,16,20,24,28,32 the six `f32` readings. -/
def unpack36 (b : List Nat) : Frame :=
  { version := leVal (seg b 0 1)
    flags := leVal (seg b 1 1)
    seq := leVal (seg b 2 2)
    tsBits := leVal (seg b 4 8)
    axBits := leVal (seg b 12 4)
    ayBits := leVal (seg b 16 4)
    azBits := leVal (seg b 20 4)
    gxBits := leVal (seg b 24 4)
    gyBits := leVal (seg b 28 4)
    gzBits := leVal (seg b 32 4) }

/-- Re-encoding of a frame per the wire layout
`[u8 version][u8 flags][u16 seq][f64 ts][f32 ax][f32 ay][f32 az][f32 gx][f32 gy][f32 gz]`,
little-endian. -/
def pack36 (f : Frame) : List Nat :=
  leBytes 1 f.version ++ leBytes 1 f.flags ++ leBytes 2 f.seq ++ leBytes 8 f.tsBits ++
  leBytes 4 f.axBits ++ leBytes 4 f.ayBits ++ leBytes 4 f.azBits ++
  leBytes 4 f.gxBits ++ leBytes 4 f.gyBits ++ leBytes 4 f.gzBits

/-! ### Telemetry decoding inside `on_message`

The binary branch of `on_message` initialises `seq`, `ts`, `ax` … `gz` to
`None`, and overwrites them from `struct.unpack` only when
`len(message) >= 36`; `struct.unpack` on the exact 36-byte slice
`message[:36]` with format `"<BBHdffffff"` cannot raise (the only
`struct.error` is a size mismatch), so the `except` branch leaving the
fields `None` is unreachable once the length test passed. -/

/-- The eight telemetry fields published in a sample event; `none` is the
Python `None` of an unparsed (too short) frame. -/
structure Telemetry where
  seq : Option Nat
  ts : Option Nat
  ax : Option Nat
  ay : Option Nat
  az : Option Nat
  gx : Option Nat
  gy : Option Nat
  gz : Option Nat
  deriving DecidableEq

/-- The all-`None` telemetry of a frame shorter than 36 bytes. -/
def nullTelemetry : Telemetry :=
  ⟨none, none, none, none, none, none, none, none⟩

/-- The telemetry-field part of the binary branch of `on_message`: fields
start as `None` and are filled from `struct.unpack("<BBHdffffff", message[:36])`
when the message is at least 36 bytes long. -/
def decodeTelemetry (msg : List Nat) : Telemetry :=
  if 36 ≤ msg.length then
    let f := unpack36 (msg.take 36)
    ⟨some f.seq, some f.tsBits, some f.axBits, some f.ayBits, some f.azBits,
      some f.gxBits, some f.gyBits, some f.gzBits⟩
  else nullTelemetry

/-! ### Runtime state: `Peer` and events -/

/-- One peer session (`Peer.__init__` plus the `device_label` assignment done
by `webrtc_offer`).  The `RTCPeerConnection` handle is modelled only through
the close oracles of the operations that touch it; `channel` stands for the
data-channel reference set by the `datachannel` callback. -/
structure Peer where
  id : String
  channel : Option Nat
  deviceLabel : Option String
  samplesReceived : Nat
  deriving DecidableEq

/-- One entry of the dashboard snapshot: peerId, label and count for one
registered peer. -/
structure SnapEntry where
  peerId : String
  label : Option String
  count : Nat
  deriving DecidableEq

/-- The sample event dict built by the binary branch of `on_message`. -/
structure SampleEvent where
  kind : String
  peerId : String
  label : Option String
  count : Nat
  telemetry : Telemetry
  deriving DecidableEq

/-- Values of a decoded control-message JSON object; only string and null
values are distinguished, which is all the handler inspects. -/
inductive CtrlVal where
  | vstr (s : String)
  | vnull
  deriving DecidableEq

/-- A Python dict with string keys, as a partial map. -/
def Obj : Type := String → Option CtrlVal

/-- Dict assignment `o[k] = v`. -/
def objSet (o : Obj) (k : String) (v : CtrlVal) : Obj :=
  fun q => if q = k then some v else o q

/-- Dict read with default, `o.get(k, d)`. -/
def objGetD (o : Obj) (k : String) (d : CtrlVal) : CtrlVal :=
  (o k).getD d

/-- Dict `o.setdefault(k, v)`: keep an existing entry (even a null one),
otherwise insert `v`. -/
def objSetdefault (o : Obj) (k : String) (v : CtrlVal) : Obj :=
  match o k with
  | some _ => o
  | none => objSet o k v

/-- The empty dict. -/
def objEmpty : Obj := fun _ => none

/-- The wrapper dict holding the raw text under the "text" key, built when
`json.loads` fails. -/
def objText (raw : String) : Obj :=
  objSet objEmpty "text" (CtrlVal.vstr raw)

/-- A Python `Optional[str]` as a JSON value. -/
def labelVal : Option String → CtrlVal
  | some s => CtrlVal.vstr s
  | none => CtrlVal.vnull

/-- Events published through the hub (the dicts handed to `broadcast`). -/
inductive Event where
  | sample (ev : SampleEvent)
  | ctrl (o : Obj)
  | snapshot (entries : List SnapEntry)
  | ice (pid : String) (connState : String)
  | left (pid : String)

/-- Side effects requested by a per-peer handler: publishing an event through
the hub, or closing the peer transport. -/
inductive Act where
  | publish (ev : Event)
  | closeTransport (pid : String)

/-! ### The `on_message` handler -/

/-- An inbound data-channel message: bytes, or text together with the result
of the `json.loads` attempt (`none` means the parse raised). -/
inductive Msg where
  | binary (bytes : List Nat)
  | text (parsed : Option Obj) (raw : String)

/-- Binary branch of `on_message`: increment `samples_received` first, then
build the sample event (whose `count` is the incremented value and whose
telemetry is `None`-filled when the frame is short). -/
def onBinaryMessage (peer : Peer) (msg : List Nat) : Peer × SampleEvent :=
  let peer' := { peer with samplesReceived := peer.samplesReceived + 1 }
  (peer',
    { kind := "sample", peerId := peer'.id, label := peer'.deviceLabel,
      count := peer'.samplesReceived, telemetry := decodeTelemetry msg })

/-- The JSON object the text branch starts from: the parsed object, or the
raw text wrapped under the "text" key when `json.loads` raised. -/
def rawObjOf (parsed : Option Obj) (raw : String) : Obj :=
  match parsed with
  | some o => o
  | none => objText raw

/-- Text branch of `on_message`: default the "kind" key to "msg", overwrite
"peerId" with the peer id, and `setdefault` the "label" key to the peer's
device label. -/
def onTextMessage (peer : Peer) (parsed : Option Obj) (raw : String) : Obj :=
  let obj := rawObjOf parsed raw
  let obj := objSet obj "kind" (objGetD obj "kind" (CtrlVal.vstr "msg"))
  let obj := objSet obj "peerId" (CtrlVal.vstr peer.id)
  objSetdefault obj "label" (labelVal peer.deviceLabel)

/-- The whole `on_message` handler: the updated peer and the side effects it
requests.  Both branches only publish; neither ever requests a removal. -/
def onMessage (peer : Peer) (m : Msg) : Peer × List Act :=
  match m with
  | Msg.binary bytes =>
      let pe := onBinaryMessage peer bytes
      (pe.1, [Act.publish (Event.sample pe.2)])
  | Msg.text parsed raw =>
      (peer, [Act.publish (Event.ctrl (onTextMessage peer parsed raw))])

/-! ### The `/webrtc/offer` handler -/

/-- Outcome of the awaited negotiation steps of `webrtc_offer`
(`setRemoteDescription`, `createAnswer`, `setLocalDescription`); the three
failure constructors say which step raised. -/
inductive Nego where
  | ok
  | failSetRemote
  | failCreateAnswer
  | failSetLocal
  deriving DecidableEq

/-- The JSON body returned by a successful `webrtc_offer`. -/
structure OfferResponse where
  peerId : String
  sdp : String
  sdpType : String
  deriving DecidableEq

/-- The `/webrtc/offer` handler.  It builds the peer, stores the device label
(defaulting the missing field to "unknown"), registers the peer, and only then
awaits the negotiation steps; an exception there propagates to FastAPI as an
error response, with no cleanup of the registry.  `pid` is the generated uuid,
`nego` the negotiation oracle, `ans` the local-description SDP produced by a
successful negotiation. -/
def webrtcOffer (reg : List Peer) (sdp sdpType : String)
    (labelField : Option String) (pid : String) (nego : Nego) (ans : String) :
    List Peer × Except String OfferResponse :=
  let label := labelField.getD "unknown"
  let peer : Peer :=
    { id := pid, channel := none, deviceLabel := some label, samplesReceived := 0 }
  let reg' := reg ++ [peer]
  match nego with
  | Nego.failSetRemote => (reg', Except.error "setRemoteDescription")
  | Nego.failCreateAnswer => (reg', Except.error "createAnswer")
  | Nego.failSetLocal => (reg', Except.error "setLocalDescription")
  | Nego.ok =>
      (reg', Except.ok { peerId := pid, sdp := ans, sdpType := "answer" })

/-!  The `sdp` and `sdpType` arguments of `webrtcOffer` are the values the
handler reads out of the request body; the unused `sdp` reflects that the
handler forwards it opaquely to `RTCSessionDescription`. -/

/-! ### `remove_peer` -/

/-- The `remove_peer` coroutine: `peers.pop(peer_id, None)`; a missing id is
a no-op returning nothing.  On a hit the transport close is awaited with every
exception swallowed, and the `finally` block then broadcasts exactly one
"left" event (also with exceptions swallowed), so the result does not depend
on the close oracle `closeFails`. -/
def removePeer (reg : List Peer) (pid : String) (closeFails : Bool) :
    List Peer × List Act :=
  match reg.find? (fun p => decide (p.id = pid)) with
  | none => (reg, [])
  | some _ =>
      ((reg.filter fun p => !(decide (p.id = pid))),
        [Act.closeTransport pid, Act.publish (Event.left pid)])

/-- Number of published "left" events carrying `pid` in an action list. -/
def countLeft (pid : String) (acts : List Act) : Nat :=
  (acts.filter fun a =>
    match a with
    | Act.publish (Event.left q) => decide (q = pid)
    | _ => false).length

/-! ### The `broadcast` fan-out loop -/

/-- Accumulator of the delivery loop in `broadcast`: the strings produced by
the `json.dumps` calls, the subscribers a send was attempted to, and the
subscribers whose send raised (collected for the second pass). -/
structure LoopState where
  serialized : List String
  attempted : List String
  stale : List String
  deriving DecidableEq

/-- One iteration of the delivery loop: serialize (the `json.dumps(msg)` call
happens on every iteration), attempt the send, and on failure append the
subscriber to `stale`. -/
def deliveryStep (ser : Unit → String) (sendOk : String → Bool)
    (s : LoopState) (ws : String) : LoopState :=
  let s' := { s with serialized := s.serialized ++ [ser ()],
                     attempted := s.attempted ++ [ws] }
  if sendOk ws then s' else { s' with stale := s'.stale ++ [ws] }

/-- One iteration of the second pass: `dashboards.discard(ws)`. -/
def discardOne (d : List String) (ws : String) : List String :=
  d.filter fun x => !(decide (x = ws))

/-- The whole `broadcast` coroutine over the subscriber set `dashboards`
(listed in iteration order): run the delivery loop over the snapshot
`list(dashboards)`, then apply the second pass removing each stale subscriber.
Returns the loop accumulator and the subscriber set after the second pass. -/
def broadcastRun (dashboards : List String) (ser : Unit → String)
    (sendOk : String → Bool) : LoopState × List String :=
  let lp := dashboards.foldl (deliveryStep ser sendOk) ⟨[], [], []⟩
  (lp, lp.stale.foldl discardOne dashboards)

/-! ### Whole-process state and the event loop

The process-wide mutable state of `app.py`: the peer registry (a dict in
insertion order), the subscriber set `dashboards` (listed in iteration
order), the status of every task in `background_tasks`, and — as observation
bookkeeping for the claims — the list of event frames each websocket has
received so far (`inbox`).  Handlers run to completion one at a time on the
single event loop, so a trace of handler invocations is a `List Op` folded
over the state. -/

/-- Status of one tracked background task. -/
inductive TaskStatus where
  | running
  | completed
  | cancelled
  deriving DecidableEq

/-- A task is terminal when it has completed or been cancelled. -/
def TaskStatus.isTerminal : TaskStatus → Bool
  | TaskStatus.running => false
  | _ => true

/-- The process-wide state. -/
structure AppState where
  peers : List Peer
  dashboards : List String
  inbox : String → List Event
  tasks : List TaskStatus

/-- The dashboard snapshot list built by `ws_dashboard`:
one (peerId, label, count) entry per registered peer, in registry order. -/
def snapshotOf (reg : List Peer) : List SnapEntry :=
  reg.map fun p => ⟨p.id, p.deviceLabel, p.samplesReceived⟩

/-- Deliver one published event: run the `broadcast` loop over the current
subscriber set (pruning the stale ones), and record the event in the inbox of
every subscriber whose send succeeded. -/
def deliver (st : AppState) (ev : Event) (ser : Unit → String)
    (sendOk : String → Bool) : AppState :=
  { st with
    dashboards := (broadcastRun st.dashboards ser sendOk).2
    inbox := fun w =>
      if decide (w ∈ st.dashboards) && sendOk w then st.inbox w ++ [ev]
      else st.inbox w }

/-- Apply one handler side effect to the state.  Closing a transport touches
no shared state (its errors are swallowed by the callers). -/
def applyAct (serFn : Event → String) (sendOk : String → Bool)
    (st : AppState) (a : Act) : AppState :=
  match a with
  | Act.publish ev => deliver st ev (fun _ => serFn ev) sendOk
  | Act.closeTransport _ => st

/-- One handler invocation on the event loop. -/
inductive Op where
  | subscribe (ws : String)
  | offer (sdp sdpType : String) (labelField : Option String) (pid : String)
      (nego : Nego) (ans : String)
  | peerMessage (pid : String) (m : Msg) (sendOk : String → Bool)
  | requestRemove (pid : String) (closeFails : Bool) (sendOk : String → Bool)

/-- The event loop step.  `subscribe` is the prefix of `ws_dashboard`: accept,
add to the subscriber set, send the snapshot built from the registry at this
instant.  `offer` is `webrtc_offer`'s effect on the registry.  `peerMessage`
runs `on_message` for the registered peer with that id (a message for an
unknown id has no handler to run).  `requestRemove` is `remove_peer`.
`serFn` is the JSON serializer used by `broadcast`. -/
def step (serFn : Event → String) (st : AppState) (op : Op) : AppState :=
  match op with
  | Op.subscribe ws =>
      { st with
        dashboards :=
          if decide (ws ∈ st.dashboards) then st.dashboards
          else st.dashboards ++ [ws]
        inbox := fun w =>
          if decide (w = ws) then
            st.inbox w ++ [Event.snapshot (snapshotOf st.peers)]
          else st.inbox w }
  | Op.offer sdp sdpType labelField pid nego ans =>
      { st with peers := (webrtcOffer st.peers sdp sdpType labelField pid nego ans).1 }
  | Op.peerMessage pid m sendOk =>
      match st.peers.find? (fun p => decide (p.id = pid)) with
      | none => st
      | some peer =>
          let pa := onMessage peer m
          let st' := { st with
            peers := st.peers.map fun q => if decide (q.id = pid) then pa.1 else q }
          pa.2.foldl (applyAct serFn sendOk) st'
  | Op.requestRemove pid closeFails sendOk =>
      let ra := removePeer st.peers pid closeFails
      let st' := { st with peers := ra.1 }
      ra.2.foldl (applyAct serFn sendOk) st'

/-- Run a trace of handler invocations. -/
def run (serFn : Event → String) (st : AppState) (ops : List Op) : AppState :=
  ops.foldl (step serFn) st

/-- A sequence of binary messages processed by one peer's `on_message`. -/
def processBinaries (peer : Peer) (msgs : List (List Nat)) : Peer :=
  msgs.foldl (fun p m => (onBinaryMessage p m).1) peer

/-! ### Graceful shutdown -/

/-- The side effects of the shutdown handler, in order. -/
inductive SAction where
  | closePeer (pid : String)
  | closeWS (ws : String)
  | cancelTask (i : Nat)
  deriving DecidableEq

/-- Cancellation then `asyncio.gather`: a still-running task ends cancelled,
an already finished one keeps its status; either way it is terminal. -/
def cancelFinish : TaskStatus → TaskStatus
  | TaskStatus.running => TaskStatus.cancelled
  | s => s

/-- The `shutdown` handler: (1) close every peer transport (errors swallowed,
oracle `peerCloseFails` irrelevant to the result) and clear the registry;
(2) close every dashboard websocket (errors swallowed) and clear the set;
(3) cancel every tracked task and await them all.  Returns the new state and
the ordered list of side effects. -/
def shutdown (st : AppState) (peerCloseFails : String → Bool)
    (wsCloseFails : String → Bool) : AppState × List SAction :=
  let acts :=
    (st.peers.map fun p => SAction.closePeer p.id) ++
    (st.dashboards.map SAction.closeWS) ++
    ((List.range st.tasks.length).map SAction.cancelTask)
  ({ st with peers := [], dashboards := [], tasks := st.tasks.map cancelFinish },
    acts)

/-! ### Little-endian codec lemmas and the frame round trip -/

theorem leBytes_leVal : ∀ bs : List Nat, (∀ x ∈ bs, x < 256) →
    leBytes bs.length (leVal bs) = bs := by
  intro bs
  induction bs with
  | nil => intro _; rfl
  | cons b rest ih =>
    intro h
    have hb : b < 256 := h b (List.mem_cons_self b rest)
    have hrest : ∀ x ∈ rest, x < 256 := fun x hx => h x (List.mem_cons_of_mem b hx)
    simp only [List.length_cons, leVal, leBytes]
    have hmod : (b + 256 * leVal rest) % 256 = b := by
      rw [Nat.add_mul_mod_self_left, Nat.mod_eq_of_lt hb]
    have hdiv : (b + 256 * leVal rest) / 256 = leVal rest := by
      rw [Nat.add_mul_div_left b (leVal rest) (by norm_num : (0:ℕ) < 256),
        Nat.div_eq_of_lt hb, Nat.zero_add]
    rw [hmod, hdiv, ih hrest]

theorem seg_length (b : List Nat) (off n : Nat) (h : off + n ≤ b.length) :
    (seg b off n).length = n := by
  simp only [seg, List.length_take, List.length_drop]
  omega

theorem seg_mem (b : List Nat) (off n : Nat) (x : Nat) (hx : x ∈ seg b off n) :
    x ∈ b := by
  simp only [seg] at hx
  exact List.mem_of_mem_drop (List.mem_of_mem_take hx)

theorem seg_append (b : List Nat) (off m n : Nat) :
    seg b off m ++ seg b (off + m) n = seg b off (m + n) := by
  simp only [seg]
  rw [List.take_add, List.drop_drop]

/-- Variant of `seg_append` stated with the combined offset and length given
as explicit arguments, convenient for chaining over numeric literals. -/
theorem seg_glue (b : List Nat) (off m p n q : Nat) (h1 : off + m = p)
    (h2 : m + n = q) : seg b off m ++ seg b p n = seg b off q := by
  subst h1
  subst h2
  exact seg_append b off m n

theorem leBytes_leVal_seg (b : List Nat) (off n : Nat)
    (hlen : off + n ≤ b.length) (hb : ∀ x ∈ b, x < 256) :
    leBytes n (leVal (seg b off n)) = seg b off n := by
  have h1 : (seg b off n).length = n := seg_length b off n hlen
  have h2 : ∀ x ∈ seg b off n, x < 256 := fun x hx => hb x (seg_mem b off n x hx)
  calc leBytes n (leVal (seg b off n))
      = leBytes (seg b off n).length (leVal (seg b off n)) := by rw [h1]
    _ = seg b off n := leBytes_leVal (seg b off n) h2

theorem pack36_unpack36 (b : List Nat) (hlen : b.length = 36)
    (hb : ∀ x ∈ b, x < 256) :
    pack36 (unpack36 b) = b := by
  simp only [pack36, unpack36]
  rw [leBytes_leVal_seg b 0 1 (by omega) hb,
    leBytes_leVal_seg b 1 1 (by omega) hb,
    leBytes_leVal_seg b 2 2 (by omega) hb,
    leBytes_leVal_seg b 4 8 (by omega) hb,
    leBytes_leVal_seg b 12 4 (by omega) hb,
    leBytes_leVal_seg b 16 4 (by omega) hb,
    leBytes_leVal_seg b 20 4 (by omega) hb,
    leBytes_leVal_seg b 24 4 (by omega) hb,
    leBytes_leVal_seg b 28 4 (by omega) hb,
    leBytes_leVal_seg b 32 4 (by omega) hb,
    seg_glue b 0 1 1 1 2 (by norm_num) (by norm_num),
    seg_glue b 0 2 2 2 4 (by norm_num) (by norm_num),
    seg_glue b 0 4 4 8 12 (by norm_num) (by norm_num),
    seg_glue b 0 12 12 4 16 (by norm_num) (by norm_num),
    seg_glue b 0 16 16 4 20 (by norm_num) (by norm_num),
    seg_glue b 0 20 20 4 24 (by norm_num) (by norm_num),
    seg_glue b 0 24 24 4 28 (by norm_num) (by norm_num),
    seg_glue b 0 28 28 4 32 (by norm_num) (by norm_num),
    seg_glue b 0 32 32 4 36 (by norm_num) (by norm_num)]
  simp only [seg, List.drop_zero]
  rw [← hlen, List.take_length]

/-! ### Characterisation of the broadcast loop -/

theorem foldl_deliveryStep (ser : Unit → String) (sendOk : String → Bool) :
    ∀ (l : List String) (s : LoopState),
      l.foldl (deliveryStep ser sendOk) s =
        ⟨s.serialized ++ List.replicate l.length (ser ()),
         s.attempted ++ l,
         s.stale ++ l.filter fun ws => !(sendOk ws)⟩ := by
  intro l
  induction l with
  | nil => intro s; simp
  | cons a t ih =>
    intro s
    simp only [List.foldl_cons, ih, deliveryStep]
    by_cases h : sendOk a
    · simp [h, List.append_assoc, List.replicate_succ]
    · simp [h, List.append_assoc, List.replicate_succ]

theorem foldl_discardOne :
    ∀ (stale d : List String),
      stale.foldl discardOne d = d.filter fun x => !(decide (x ∈ stale)) := by
  intro stale
  induction stale with
  | nil => intro d; simp
  | cons a t ih =>
    intro d
    simp only [List.foldl_cons, ih, discardOne, List.filter_filter]
    apply List.filter_congr
    intro x _
    by_cases h : x = a
    · simp [h]
    · by_cases h2 : x ∈ t <;> simp [h, h2]

theorem broadcastRun_eq (dashboards : List String) (ser : Unit → String)
    (sendOk : String → Bool) :
    broadcastRun dashboards ser sendOk =
      (⟨List.replicate dashboards.length (ser ()),
        dashboards,
        dashboards.filter fun ws => !(sendOk ws)⟩,
       dashboards.filter sendOk) := by
  simp only [broadcastRun, foldl_deliveryStep, foldl_discardOne, List.nil_append,
    Prod.mk.injEq]
  refine ⟨trivial, ?_⟩
  apply List.filter_congr
  intro x hx
  by_cases h : sendOk x
  · simp [h, List.mem_filter]
  · simp [h, List.mem_filter, hx]

/-! ### Frames already received are never unreceived

Every operation of the event loop only appends to a subscriber's received
frames, so whatever frame stands first in an inbox stays first. -/

theorem deliver_inbox (st : AppState) (ev : Event) (ser : Unit → String)
    (sendOk : String → Bool) (w : String) :
    ∃ ext, (deliver st ev ser sendOk).inbox w = st.inbox w ++ ext := by
  simp only [deliver]
  by_cases h : decide (w ∈ st.dashboards) && sendOk w
  · exact ⟨[ev], by simp [h]⟩
  · exact ⟨[], by simp [h]⟩

theorem applyAct_inbox (serFn : Event → String) (sendOk : String → Bool)
    (st : AppState) (a : Act) (w : String) :
    ∃ ext, (applyAct serFn sendOk st a).inbox w = st.inbox w ++ ext := by
  cases a with
  | publish ev => exact deliver_inbox st ev _ sendOk w
  | closeTransport pid => exact ⟨[], by simp [applyAct]⟩

theorem foldl_applyAct_inbox (serFn : Event → String) (sendOk : String → Bool)
    (acts : List Act) :
    ∀ (st : AppState) (w : String),
      ∃ ext, (acts.foldl (applyAct serFn sendOk) st).inbox w = st.inbox w ++ ext := by
  induction acts with
  | nil => intro st w; exact ⟨[], by simp⟩
  | cons a t ih =>
    intro st w
    obtain ⟨e1, h1⟩ := applyAct_inbox serFn sendOk st a w
    obtain ⟨e2, h2⟩ := ih (applyAct serFn sendOk st a) w
    exact ⟨e1 ++ e2, by simp only [List.foldl_cons, h2, h1, List.append_assoc]⟩

theorem step_inbox (serFn : Event → String) (st : AppState) (op : Op)
    (w : String) :
    ∃ ext, (step serFn st op).inbox w = st.inbox w ++ ext := by
  cases op with
  | subscribe ws =>
    by_cases h : w = ws
    · exact ⟨[Event.snapshot (snapshotOf st.peers)], by simp [step, h]⟩
    · exact ⟨[], by simp [step, h]⟩
  | offer sdp sdpType labelField pid nego ans => exact ⟨[], by simp [step]⟩
  | peerMessage pid m sendOk =>
    simp only [step]
    cases hf : st.peers.find? (fun p => decide (p.id = pid)) with
    | none => exact ⟨[], by simp⟩
    | some peer => exact foldl_applyAct_inbox serFn sendOk _ _ w
  | requestRemove pid closeFails sendOk =>
    simp only [step]
    exact foldl_applyAct_inbox serFn sendOk _ _ w

theorem run_inbox (serFn : Event → String) (ops : List Op) :
    ∀ (st : AppState) (w : String),
      ∃ ext, (run serFn st ops).inbox w = st.inbox w ++ ext := by
  induction ops with
  | nil => intro st w; exact ⟨[], by simp [run]⟩
  | cons op t ih =>
    intro st w
    obtain ⟨e1, h1⟩ := step_inbox serFn st op w
    obtain ⟨e2, h2⟩ := ih (step serFn st op) w
    exact ⟨e1 ++ e2, by simp only [run, List.foldl_cons] at h2 ⊢
                        rw [h2, h1, List.append_assoc]⟩

/-! ### Dict lookup lemmas -/

theorem objSet_get_eq (o : Obj) (k : String) (v : CtrlVal) :
    objSet o k v k = some v := by
  simp [objSet]

theorem objSet_get_ne (o : Obj) (k q : String) (v : CtrlVal) (h : q ≠ k) :
    objSet o k v q = o q := by
  simp [objSet, h]

theorem objSetdefault_get_ne (o : Obj) (k q : String) (v : CtrlVal)
    (h : q ≠ k) : objSetdefault o k v q = o q := by
  simp only [objSetdefault]
  cases o k with
  | some w => rfl
  | none => simp [objSet, h]

theorem objSetdefault_get_absent (o : Obj) (k : String) (v : CtrlVal)
    (h : o k = none) : objSetdefault o k v k = some v := by
  simp [objSetdefault, h, objSet]

/-- Count of samples after a run of binary messages: one per message. -/
theorem processBinaries_counter :
    ∀ (msgs : List (List Nat)) (peer : Peer),
      (processBinaries peer msgs).samplesReceived
        = peer.samplesReceived + msgs.length := by
  intro msgs
  induction msgs with
  | nil => intro peer; simp [processBinaries]
  | cons m t ih =>
    intro peer
    simp only [processBinaries, List.foldl_cons] at ih ⊢
    rw [ih]
    simp [onBinaryMessage]
    omega

/-! ### The claims -/

/-- C4: a binary message shorter than 36 bytes is decoded into a sample event
whose telemetry fields (seq, ts, ax, ay, az, gx, gy, gz) are all null; the
handler is total (never raises) and its only side effect is publishing the
sample — it never requests a removal, so the session is not disconnected.
(For a message of length at least 36, `struct.unpack` on the exact 36-byte
slice `message[:36]` cannot raise, so the "first 36 bytes fail to parse" case
of the claim is vacuous; the `except` branch that would null the fields is
dead code for the length-checked parse.) -/
theorem C4_short_frame_null_fields (peer : Peer) (msg : List Nat)
    (h : msg.length < 36) :
    onMessage peer (Msg.binary msg) =
      ({ peer with samplesReceived := peer.samplesReceived + 1 },
        [Act.publish (Event.sample
          { kind := "sample", peerId := peer.id, label := peer.deviceLabel,
            count := peer.samplesReceived + 1, telemetry := nullTelemetry })]) := by
  have h36 : ¬ 36 ≤ msg.length := by omega
  simp [onMessage, onBinaryMessage, decodeTelemetry, h36]

/-- Witness for C4 at a concrete 3-byte message. -/
theorem C4_short_frame_null_fields_witness :
    onMessage ⟨"p1", none, some "iPhone", 5⟩ (Msg.binary [1, 2, 3]) =
      (⟨"p1", none, some "iPhone", 6⟩,
        [Act.publish (Event.sample
          { kind := "sample", peerId := "p1", label := some "iPhone",
            count := 6, telemetry := nullTelemetry })]) :=
  C4_short_frame_null_fields ⟨"p1", none, some "iPhone", 5⟩ [1, 2, 3] (by decide)

/-- C5: for every well-formed 36-byte little-endian frame (each byte below
256), re-encoding the decoded fields — version (u8), flags (u8), sequence
(u16), timestamp (f64 bit pattern) and the six f32 bit patterns — per the
wire layout reproduces the original 36 bytes, and for longer inputs exactly
the first 36 bytes are parsed.  The IEEE-754 fields are modelled by their bit
patterns, which is what `struct.unpack`/`struct.pack` read and write
byte-exactly. -/
theorem C5_decode_encode_roundtrip :
    (∀ b : List Nat, b.length = 36 → (∀ x ∈ b, x < 256) →
        pack36 (unpack36 b) = b) ∧
    (∀ msg : List Nat, 36 ≤ msg.length →
        decodeTelemetry msg = decodeTelemetry (msg.take 36)) := by
  constructor
  · exact pack36_unpack36
  · intro msg h
    have h1 : 36 ≤ (msg.take 36).length := by
      simp only [List.length_take]
      omega
    simp [decodeTelemetry, h, h1, List.take_take]

/-- Witness for C5 at a concrete 36-byte frame and a concrete 40-byte input. -/
theorem C5_decode_encode_roundtrip_witness :
    pack36 (unpack36 (List.replicate 36 7)) = List.replicate 36 7 ∧
    decodeTelemetry (List.replicate 40 9)
      = decodeTelemetry ((List.replicate 40 9).take 36) :=
  ⟨C5_decode_encode_roundtrip.1 (List.replicate 36 7) (by decide) (by decide),
    C5_decode_encode_roundtrip.2 (List.replicate 40 9) (by decide)⟩

/-- C9: every binary message — including one shorter than 36 bytes or
otherwise unparseable — bumps the peer's `samples_received` by exactly one
before the sample event is built, the event's `count` field is that bumped
value, and over any sequence of binary messages the counter grows by the
number of messages and hence never decreases. -/
theorem C9_samples_counter :
    ∀ (peer : Peer) (msg : List Nat),
      ((onBinaryMessage peer msg).1).samplesReceived = peer.samplesReceived + 1 ∧
      ((onBinaryMessage peer msg).2).count = peer.samplesReceived + 1 ∧
      ∀ msgs : List (List Nat),
        (processBinaries peer msgs).samplesReceived
            = peer.samplesReceived + msgs.length ∧
        peer.samplesReceived ≤ (processBinaries peer msgs).samplesReceived := by
  intro peer msg
  refine ⟨by simp [onBinaryMessage], by simp [onBinaryMessage], ?_⟩
  intro msgs
  rw [processBinaries_counter msgs peer]
  omega

/-- C3: removing a registered peer id removes it and performs, in order, the
best-effort transport close (whose failure, `cf1`/`cf2`, never changes the
outcome) and then the publication of exactly one "left" event carrying the
id; a second removal of the same id — or removing an id that was never
registered — is a no-op returning nothing, so across both calls exactly one
"left" event is broadcast. -/
theorem C3_remove_idempotent :
    ∀ (reg : List Peer) (pid : String) (cf1 cf2 : Bool),
      (pid ∉ reg.map Peer.id → removePeer reg pid cf1 = (reg, [])) ∧
      (pid ∈ reg.map Peer.id →
        removePeer reg pid cf1 =
          ((reg.filter fun p => !(decide (p.id = pid))),
            [Act.closeTransport pid, Act.publish (Event.left pid)]) ∧
        removePeer (removePeer reg pid cf1).1 pid cf2 =
          ((removePeer reg pid cf1).1, []) ∧
        countLeft pid ((removePeer reg pid cf1).2
            ++ (removePeer (removePeer reg pid cf1).1 pid cf2).2) = 1) := by
  intro reg pid cf1 cf2
  constructor
  · intro hni
    have hf : reg.find? (fun p => decide (p.id = pid)) = none := by
      rw [List.find?_eq_none]
      intro p hp
      simp only [decide_eq_true_eq]
      intro he
      exact hni (by rw [← he]; exact List.mem_map_of_mem Peer.id hp)
    simp [removePeer, hf]
  · intro hmem
    obtain ⟨p, hp, hpid⟩ := List.mem_map.mp hmem
    have hsome : (reg.find? (fun p => decide (p.id = pid))).isSome := by
      rw [List.find?_isSome]
      exact ⟨p, hp, by simp [hpid]⟩
    obtain ⟨q, hq⟩ := Option.isSome_iff_exists.mp hsome
    have h1 : removePeer reg pid cf1 =
        ((reg.filter fun p => !(decide (p.id = pid))),
          [Act.closeTransport pid, Act.publish (Event.left pid)]) := by
      simp [removePeer, hq]
    have hf2 : (reg.filter fun p => !(decide (p.id = pid))).find?
        (fun p => decide (p.id = pid)) = none := by
      rw [List.find?_eq_none]
      intro x hx
      have hpx := (List.mem_filter.mp hx).2
      simp only [Bool.not_eq_true', decide_eq_false_iff_not] at hpx
      simp [hpx]
    have h2 : removePeer (removePeer reg pid cf1).1 pid cf2 =
        ((removePeer reg pid cf1).1, []) := by
      rw [h1]
      simp [removePeer, hf2]
    refine ⟨h1, h2, ?_⟩
    rw [h2, h1]
    simp [countLeft]

/-- Witness for C3: a registry holding the peer, removed twice, and a
never-registered id removed once. -/
theorem C3_remove_idempotent_witness :
    removePeer [Peer.mk "p1" none (some "lbl") 0] "p9" false =
      ([Peer.mk "p1" none (some "lbl") 0], []) ∧
    countLeft "p1"
      ((removePeer [Peer.mk "p1" none (some "lbl") 0] "p1" false).2
        ++ (removePeer
              (removePeer [Peer.mk "p1" none (some "lbl") 0] "p1" false).1
              "p1" true).2) = 1 :=
  ⟨(C3_remove_idempotent [Peer.mk "p1" none (some "lbl") 0] "p9" false false).1
      (by decide),
    ((C3_remove_idempotent [Peer.mk "p1" none (some "lbl") 0] "p1" false true).2
      (by decide)).2.2⟩

/-- C6: shutdown — whatever the number of peers, subscribers and in-flight
tasks, and whatever the close oracles report — leaves the peer registry
empty, the subscriber set empty, and every tracked task terminal (a running
task is cancelled, a finished one keeps its status), and its side effects are
ordered: all peer-transport closes, then all websocket closes, then all task
cancellations. -/
theorem C6_shutdown_drains :
    ∀ (st : AppState) (pcf wcf : String → Bool),
      (shutdown st pcf wcf).1.peers = [] ∧
      (shutdown st pcf wcf).1.dashboards = [] ∧
      ((shutdown st pcf wcf).1.tasks.all TaskStatus.isTerminal) = true ∧
      (shutdown st pcf wcf).1.tasks.length = st.tasks.length ∧
      (shutdown st pcf wcf).2 =
        (st.peers.map fun p => SAction.closePeer p.id) ++
        (st.dashboards.map SAction.closeWS) ++
        ((List.range st.tasks.length).map SAction.cancelTask) := by
  intro st pcf wcf
  refine ⟨rfl, rfl, ?_, by simp [shutdown], rfl⟩
  simp only [shutdown]
  rw [List.all_eq_true]
  intro x hx
  obtain ⟨t, ht, rfl⟩ := List.mem_map.mp hx
  cases t <;> rfl

/-- C1 counterexample: starting from the empty registry, an offer whose
`setRemoteDescription` step raises leaves the registry different from its
state before the call — the freshly created peer stays registered, refuting
"the registry is unchanged from its state before the call". -/
theorem C1_counterexample :
    (webrtcOffer [] "v=0" "offer" none "p1" Nego.failSetRemote "ans").1
      ≠ ([] : List Peer) := by
  decide

/-- C1 amended: when negotiation fails before completion
(`setRemoteDescription`, `createAnswer` or `setLocalDescription` raises), the
failure is surfaced to the HTTP caller as an error response, but the peer
created for the request remains registered — the registry equals its prior
state with the new peer appended, because `webrtc_offer` registers the peer
before awaiting negotiation and performs no cleanup on failure. -/
theorem C1_negotiation_failure_surfaced_peer_left :
    ∀ (reg : List Peer) (sdp sdpType : String) (labelField : Option String)
      (pid : String) (nego : Nego) (ans : String),
      nego ≠ Nego.ok →
      (∃ e, (webrtcOffer reg sdp sdpType labelField pid nego ans).2
          = Except.error e) ∧
      (webrtcOffer reg sdp sdpType labelField pid nego ans).1 =
        reg ++ [{ id := pid, channel := none,
                  deviceLabel := some (labelField.getD "unknown"),
                  samplesReceived := 0 }] := by
  intro reg sdp sdpType lf pid nego ans hne
  cases nego with
  | ok => exact absurd rfl hne
  | failSetRemote => exact ⟨⟨"setRemoteDescription", rfl⟩, rfl⟩
  | failCreateAnswer => exact ⟨⟨"createAnswer", rfl⟩, rfl⟩
  | failSetLocal => exact ⟨⟨"setLocalDescription", rfl⟩, rfl⟩

/-- Witness for the amended C1 at a concrete failing offer. -/
theorem C1_negotiation_failure_surfaced_peer_left_witness :
    (webrtcOffer [] "v=0" "offer" none "p7" Nego.failCreateAnswer "ans").1 =
      [] ++ [{ id := "p7", channel := none, deviceLabel := some "unknown",
               samplesReceived := 0 }] :=
  (C1_negotiation_failure_surfaced_peer_left [] "v=0" "offer" none "p7"
      Nego.failCreateAnswer "ans" (by decide)).2

/-- C2 counterexample: with two subscribers both accepting delivery, the
event is serialized twice (`json.dumps` runs inside the delivery loop, once
per subscriber), refuting "the event is serialized exactly once". -/
theorem C2_counterexample :
    ((broadcastRun ["a", "b"] (fun _ => "payload") (fun _ => true)).1).serialized.length
      ≠ 1 := by
  decide

/-- C2 amended: the event is serialized once per subscriber (every
serialization of the same event, so all produced strings are equal); delivery
is attempted, in order, to every subscriber present at the start of the loop;
a per-subscriber failure only adds that subscriber to the stale list; and the
removals are applied in a second pass after the loop completes, leaving
exactly the subscribers whose send succeeded. -/
theorem C2_broadcast_fanout :
    ∀ (dashboards : List String) (ser : Unit → String) (sendOk : String → Bool),
      broadcastRun dashboards ser sendOk =
        (⟨List.replicate dashboards.length (ser ()),
          dashboards,
          dashboards.filter fun ws => !(sendOk ws)⟩,
          dashboards.filter sendOk) := by
  intro dashboards ser sendOk
  exact broadcastRun_eq dashboards ser sendOk

/-- C7 counterexample: a text message whose JSON object already carries a
"label" key keeps its own label — `setdefault` does not overwrite it — so the
published event does not carry the peer's label, refuting "every decoded
event ... carries ... that peer's label, stamped onto the event". -/
theorem C7_counterexample :
    onTextMessage ⟨"p1", none, some "iPhone", 0⟩
        (some (objSet objEmpty "label" (CtrlVal.vstr "spoof"))) "" "label"
      ≠ some (labelVal (some "iPhone")) := by
  decide

/-- C7 amended: every published sample event carries the originating peer's
id and label; every published text event carries the peer's id, and carries
the peer's label exactly when the message's own object had no "label" key
(`setdefault` keeps an existing one); a failed JSON decode wraps the raw text
under the "text" key, which survives to the published event. -/
theorem C7_event_stamping :
    ∀ (peer : Peer) (msg : List Nat) (parsed : Option Obj) (raw : String),
      ((onBinaryMessage peer msg).2).peerId = peer.id ∧
      ((onBinaryMessage peer msg).2).label = peer.deviceLabel ∧
      onTextMessage peer parsed raw "peerId" = some (CtrlVal.vstr peer.id) ∧
      (rawObjOf parsed raw "label" = none →
        onTextMessage peer parsed raw "label"
          = some (labelVal peer.deviceLabel)) ∧
      (parsed = none →
        onTextMessage peer parsed raw "text" = some (CtrlVal.vstr raw)) := by
  intro peer msg parsed raw
  refine ⟨by simp [onBinaryMessage], by simp [onBinaryMessage], ?_, ?_, ?_⟩
  · simp only [onTextMessage]
    rw [objSetdefault_get_ne _ _ _ _ (by decide), objSet_get_eq]
  · intro h
    simp only [onTextMessage]
    rw [objSetdefault_get_absent]
    rw [objSet_get_ne _ _ _ _ (by decide), objSet_get_ne _ _ _ _ (by decide)]
    exact h
  · intro h
    subst h
    simp only [onTextMessage]
    rw [objSetdefault_get_ne _ _ _ _ (by decide),
      objSet_get_ne _ _ _ _ (by decide), objSet_get_ne _ _ _ _ (by decide)]
    simp only [rawObjOf, objText]
    rw [objSet_get_eq]

/-- Witness for the amended C7 at a concrete peer, sample and failed-parse
text message. -/
theorem C7_event_stamping_witness :
    onTextMessage ⟨"p1", none, some "iPhone", 2⟩ none "hello" "label"
        = some (labelVal (some "iPhone")) ∧
    onTextMessage ⟨"p1", none, some "iPhone", 2⟩ none "hello" "text"
        = some (CtrlVal.vstr "hello") ∧
    ((onBinaryMessage ⟨"p1", none, some "iPhone", 2⟩ []).2).peerId = "p1" :=
  ⟨(C7_event_stamping ⟨"p1", none, some "iPhone", 2⟩ [] none "hello").2.2.2.1
      (by decide),
    (C7_event_stamping ⟨"p1", none, some "iPhone", 2⟩ [] none "hello").2.2.2.2
      rfl,
    (C7_event_stamping ⟨"p1", none, some "iPhone", 2⟩ [] none "hello").1⟩

/-- C10 counterexample: the peer created from an offer without a label field
does carry the literal label "unknown", but a subsequently published text
event whose JSON object carries its own "label" key does not show that value,
refuting "that value appears in every subsequently published event". -/
theorem C10_counterexample :
    (webrtcOffer [] "v=0" "offer" none "p2" Nego.ok "ans").1 =
        [⟨"p2", none, some "unknown", 0⟩] ∧
    onTextMessage ⟨"p2", none, some "unknown", 0⟩
        (some (objSet objEmpty "label" (CtrlVal.vstr "custom"))) "" "label"
      ≠ some (CtrlVal.vstr "unknown") := by
  exact ⟨by decide, by decide⟩

/-- C10 amended: an offer whose payload omits the label field creates a peer
whose label is the literal string "unknown" (not null or absent); that value
appears in every sample event built for the peer, in the peer's entry of
every registry snapshot it occurs in, and in every text event whose own
object carries no "label" key. -/
theorem C10_default_label_unknown :
    ∀ (reg : List Peer) (sdp sdpType ans pid : String) (nego : Nego)
      (p : Peer) (msg : List Nat) (parsed : Option Obj) (raw : String)
      (reg2 : List Peer),
      (webrtcOffer reg sdp sdpType none pid nego ans).1 =
        reg ++ [{ id := pid, channel := none, deviceLabel := some "unknown",
                  samplesReceived := 0 }] ∧
      (p.deviceLabel = some "unknown" →
        ((onBinaryMessage p msg).2).label = some "unknown" ∧
        (p ∈ reg2 →
          SnapEntry.mk p.id (some "unknown") p.samplesReceived ∈ snapshotOf reg2) ∧
        (rawObjOf parsed raw "label" = none →
          onTextMessage p parsed raw "label" = some (CtrlVal.vstr "unknown"))) := by
  intro reg sdp sdpType ans pid nego p msg parsed raw reg2
  constructor
  · cases nego <;> rfl
  · intro h
    refine ⟨by simp [onBinaryMessage, h], ?_, ?_⟩
    · intro hmem
      rw [← h]
      exact List.mem_map_of_mem
        (fun q : Peer => SnapEntry.mk q.id q.deviceLabel q.samplesReceived) hmem
    · intro hl
      simp only [onTextMessage]
      rw [objSetdefault_get_absent]
      · rw [h]
        rfl
      · rw [objSet_get_ne _ _ _ _ (by decide), objSet_get_ne _ _ _ _ (by decide)]
        exact hl

/-- Witness for the amended C10 at a concrete unlabeled offer and peer. -/
theorem C10_default_label_unknown_witness :
    (webrtcOffer [] "v=0" "offer" none "p3" Nego.ok "ans").1 =
        [] ++ [{ id := "p3", channel := none, deviceLabel := some "unknown",
                 samplesReceived := 0 }] ∧
    ((onBinaryMessage ⟨"p3", none, some "unknown", 0⟩ []).2).label
        = some "unknown" :=
  ⟨(C10_default_label_unknown [] "v=0" "offer" "ans" "p3" Nego.ok
      ⟨"p3", none, some "unknown", 0⟩ [] none "raw" []).1,
    ((C10_default_label_unknown [] "v=0" "offer" "ans" "p3" Nego.ok
      ⟨"p3", none, some "unknown", 0⟩ [] none "raw" []).2 rfl).1⟩

/-- C8: a fresh subscriber's first received frame is the snapshot event built
from the registry at the instant of subscribing — one entry per registered
peer with its id, label and sample count — and it stays the first frame
whatever trace of offers, messages, removals or further subscriptions runs
afterward. -/
theorem C8_first_frame_snapshot :
    ∀ (serFn : Event → String) (st : AppState) (ws : String) (ops : List Op),
      st.inbox ws = [] →
      ∃ rest, (run serFn (step serFn st (Op.subscribe ws)) ops).inbox ws =
        Event.snapshot (snapshotOf st.peers) :: rest := by
  intro serFn st ws ops h
  obtain ⟨ext, hext⟩ := run_inbox serFn ops (step serFn st (Op.subscribe ws)) ws
  refine ⟨ext, ?_⟩
  rw [hext]
  simp [step, h]

/-- Witness for C8: one registered peer, a fresh subscriber, and a trace that
afterwards removes the peer; the first received frame is still the snapshot
taken at subscribe time. -/
theorem C8_first_frame_snapshot_witness :
    ((run (fun _ => "") (step (fun _ => "")
        { peers := [⟨"p1", none, some "iPhone", 3⟩], dashboards := [],
          inbox := fun _ => [], tasks := [] } (Op.subscribe "w"))
        [Op.requestRemove "p1" false (fun _ => true)]).inbox "w").head? =
      some (Event.snapshot (snapshotOf [⟨"p1", none, some "iPhone", 3⟩])) := by
  obtain ⟨rest, hr⟩ := C8_first_frame_snapshot (fun _ => "")
    { peers := [⟨"p1", none, some "iPhone", 3⟩], dashboards := [],
      inbox := fun _ => [], tasks := [] } "w"
    [Op.requestRemove "p1" false (fun _ => true)] rfl
  rw [hr]
  rfl

end TriDance
